import Mathlib

/-!
Verification of the fear_data pipeline (src/fear_data/fc_dat.py, with the
legacy variant src/load_data.py) against its specification.

The Python code is shallowly embedded: pandas DataFrames become an ordered
association list of named columns of cells, numeric cells are exact
rationals (the claims under study do not depend on binary floating point
rounding of the data values themselves), and fallible operations return
`Except FcError`. File input and csv parsing are external collaborators:
the embedding of `load_data` receives the parsed source frame as an
argument, exactly as `pd.read_csv` would deliver it.
-/

namespace FearData

/-- A single cell of a DataFrame: missing (NaN), integer, float (exact
rational), or string.  Mirrors the value kinds a `pd.read_csv` frame can
hold in the columns this pipeline touches. -/
inductive Cell where
  | null : Cell
  | intC : Int → Cell
  | ratC : ℚ → Cell
  | strC : String → Cell
deriving DecidableEq

def Cell.isNull : Cell → Bool
  | .null => true
  | _ => false

def Cell.isInt : Cell → Bool
  | .intC _ => true
  | _ => false

def Cell.isRat : Cell → Bool
  | .ratC _ => true
  | _ => false

def Cell.isStr : Cell → Bool
  | .strC _ => true
  | _ => false

def isPrefixList : List Char → List Char → Bool
  | [], _ => true
  | _ :: _, [] => false
  | a :: as, b :: bs => decide (a = b) && isPrefixList as bs

def isInfixList (pat : List Char) : List Char → Bool
  | [] => isPrefixList pat []
  | c :: rest => isPrefixList pat (c :: rest) || isInfixList pat rest

/-- Python `pat in s` substring test (also pandas `.str.contains` for the
metacharacter-free patterns "tone" and "trace" used by the code). -/
def strContains (s pat : String) : Bool :=
  isInfixList pat.data s.data

/-- Embeds `re.match(marker, cell)` for the metacharacter-free default marker
"Experiment": an anchored prefix match. -/
def strStartsWith (pat s : String) : Bool :=
  isPrefixList pat.data s.data

/-- ASCII lower-casing, the effect of Python `str.lower()` on the
component names and session names this pipeline sees. -/
def charLower (c : Char) : Char :=
  if 'A' ≤ c ∧ c ≤ 'Z' then Char.ofNat (c.toNat + 32) else c

def strLower (s : String) : String :=
  ⟨s.data.map charLower⟩

/-- Python list membership / pandas `.isin` over string values. -/
def memStr (t : String) : List String → Bool
  | [] => false
  | s :: rest => decide (t = s) || memStr t rest

/-!
## Phase labeling (fc_dat.py, `clean_data`, lines 121-146)

`get_baseline_vals` walks `df['Component']` (the concatenated component
column over all animals, already lower-cased by line 139) and collects the
items before the first one whose lower-casing equals "tone-1"; the trailing
`str(item)` of the Python source is the identity on strings.

The four `.loc` mask assignments of lines 143-146 are row-independent once
`baseline_vals` is fixed, and each mask is computed from the column state
left by the previous assignment; the column update is therefore the
pointwise map `classifyPhase baseline_vals` applied after lower-casing.
-/

def get_baseline_vals (comps : List String) : List String :=
  comps.takeWhile (fun item => strLower item ≠ "tone-1")

/-- One component token through the four sequential `.loc` assignments of
`clean_data` (lines 143-146): baseline membership, then the "tone" and
"trace" substring tests on the updated value, then the iti fallback. -/
def classifyPhase (bvals : List String) (t : String) : String :=
  let p1 := if memStr t bvals then "baseline" else t
  let p2 := if strContains p1 "tone" then "tone" else p1
  let p3 := if strContains p2 "trace" then "trace" else p2
  if memStr p3 ["baseline", "tone", "trace"] then p3 else "iti"

/-- The Phase column computed by `clean_data` (lines 134-146) from the
Component column.  `isContext` is the `session is 'context'` branch; in the
context branch every row's Phase is the constant "context" (the integer
cast of Component there does not feed into Phase). -/
def derive_phase (isContext : Bool) (comps : List String) : List String :=
  if isContext then comps.map (fun _ => "context")
  else
    let lc := comps.map strLower
    lc.map (classifyPhase (get_baseline_vals lc))

/-!
## Start-row scan (fc_dat.py `find_start`, lines 56-72; identical in
load_data.py lines 47-63)

`re.match(start_row, cell)` with the metacharacter-free default marker
"Experiment" is a prefix match.  The Python loop returns the index of the
first record with a matching cell and, crucially, falls off the end of the
function (returning `None`) when no record matches.
-/

def find_start_aux (start_row : String) : List (List String) → Nat → Option Nat
  | [], _ => none
  | row :: rest, lineNum =>
      if row.any (fun cell => strStartsWith start_row cell) then some lineNum
      else find_start_aux start_row rest (lineNum + 1)

def find_start (rows : List (List String)) (start_row : String) : Option Nat :=
  find_start_aux start_row rows 0

/-!
## The DataFrame model

A pandas DataFrame is modelled as an ordered association list of named
columns.  The operations below are exactly the ones `load_data` performs:
`.replace('nan', np.NaN)`, `.dropna(thresh=2)`, `.reset_index()`, the
Animal dtype check and `astype` conversion, `.reindex(columns=...)`,
`.rename(columns=...)`, and masked `.loc` assignment.
-/

instance exceptDecEq {ε α : Type} [DecidableEq ε] [DecidableEq α] :
    DecidableEq (Except ε α) := fun a b =>
  match a, b with
  | .error e, .error f =>
      if h : e = f then .isTrue (congrArg Except.error h)
      else .isFalse (fun hh => h (Except.error.inj hh))
  | .ok x, .ok y =>
      if h : x = y then .isTrue (congrArg Except.ok h)
      else .isFalse (fun hh => h (Except.ok.inj hh))
  | .error _, .ok _ => .isFalse (fun hh => Except.noConfusion hh)
  | .ok _, .error _ => .isFalse (fun hh => Except.noConfusion hh)

structure DF where
  cols : List (String × List Cell)
deriving DecidableEq

def DF.colNames (df : DF) : List String := df.cols.map Prod.fst

def lookupCol : List (String × List Cell) → String → Option (List Cell)
  | [], _ => none
  | c :: rest, n => if c.1 = n then some c.2 else lookupCol rest n

def DF.getCol (df : DF) (n : String) : Option (List Cell) := lookupCol df.cols n

/-- Number of rows: the length of the first column (all columns of a real
frame share one length). -/
def DF.nrows (df : DF) : Nat :=
  match df.cols with
  | [] => 0
  | c :: _ => c.2.length

/-- Write `v` into a column at the positions where the boolean mask is
true; positions beyond the mask, and mask entries beyond the column, are
ignored (pandas masks always come from a column of the same frame). -/
def maskWrite : List Cell → List Bool → Cell → List Cell
  | [], _, _ => []
  | col, [], _ => col
  | c :: cs, b :: bs, v => (if b then v else c) :: maskWrite cs bs v

/-- Keep the elements of a list at the positions where the mask is true. -/
def maskFilter {α : Type} : List α → List Bool → List α
  | [], _ => []
  | _, [] => []
  | c :: cs, b :: bs => if b then c :: maskFilter cs bs else maskFilter cs bs

/-- Embeds `df['Animal'].isin(val)`: a string cell matches when its value is in
the id list; missing and numeric cells match nothing. -/
def animalMatches (ids : List String) : Cell → Bool
  | .strC s => memStr s ids
  | _ => false

def isinMask (col : List Cell) (ids : List String) : List Bool :=
  col.map (animalMatches ids)

/-- Embeds `df.loc[mask, n] = v`: update the first column named `n` in place, or
append a fresh column (null outside the mask) when `n` is absent —
pandas setting-with-enlargement. -/
def setCols : List (String × List Cell) → String → List Bool → Cell → List (String × List Cell)
  | [], n, mask, v => [(n, mask.map (fun b => if b then v else Cell.null))]
  | c :: rest, n, mask, v =>
      if c.1 = n then (c.1, maskWrite c.2 mask v) :: rest
      else c :: setCols rest n mask v

def DF.setColWhere (df : DF) (n : String) (mask : List Bool) (v : Cell) : DF :=
  ⟨setCols df.cols n mask v⟩

/-- Embeds `df.loc[:, n] = col`: replace the (present) column `n` wholesale. -/
def setColsAll : List (String × List Cell) → String → List Cell → List (String × List Cell)
  | [], _, _ => []
  | c :: rest, n, col => if c.1 = n then (c.1, col) :: rest else c :: setColsAll rest n col

def DF.setColAll (df : DF) (n : String) (col : List Cell) : DF := ⟨setColsAll df.cols n col⟩

/-- Embeds `df.replace('nan', np.NaN)` on one cell. -/
def replaceNanCell (c : Cell) : Cell := if c = .strC "nan" then .null else c

def DF.rowCells (df : DF) (i : Nat) : List Cell := df.cols.map (fun c => c.2.getD i Cell.null)

/-- The row mask kept by `.dropna(thresh=2)`: rows with at least two
non-null values survive. -/
def DF.keepMask (df : DF) : List Bool :=
  (List.range df.nrows).map (fun i => decide (2 ≤ (df.rowCells i).countP (fun c => !c.isNull)))

/-- Embeds line 77, `df.replace('nan', np.NaN).dropna(thresh=2).reset_index()` (fc_dat.py
line 77): normalize the string "nan" to missing, drop rows with fewer than
two non-null values, and materialize the surviving original row indices as
a leading "index" column. -/
def cleanStep (df : DF) : DF :=
  let df1 : DF := ⟨df.cols.map (fun c => (c.1, c.2.map replaceNanCell))⟩
  let keep := df1.keepMask
  ⟨("index", maskFilter ((List.range df1.nrows).map (fun i => Cell.intC i)) keep) ::
    df1.cols.map (fun c => (c.1, maskFilter c.2 keep))⟩

/-- Pandas column dtypes as far as the Animal conversion cares: a column
with any string is `object`; an all-integer nonempty column is `int64`;
any other nonempty column (floats, ints and missing values mixed) is
`float64`; an empty column is `object`. -/
inductive Dtype where
  | int64 | float64 | object
deriving DecidableEq

def colDtype (col : List Cell) : Dtype :=
  if col.any Cell.isStr then .object
  else if col.all Cell.isInt && !col.isEmpty then .int64
  else if !col.isEmpty then .float64
  else .object

/-- A column as `pd.read_csv` can deliver it: strings with missing values
(`object`), pure integers (`int64`), or numerics with missing values
(`float64`).  The csv parser never mixes strings and numbers in one
column. -/
def homogeneousCol (col : List Cell) : Bool :=
  col.all (fun c => c.isStr || c.isNull) || col.all Cell.isInt ||
    col.all (fun c => c.isRat || c.isInt || c.isNull)

def csvLike (df : DF) : Bool := df.cols.all (fun c => homogeneousCol c.2)

/-- Errors surfaced by the embedded pipeline.  `valueError` and `keyError`
model the Python exceptions the source actually raises (`ValueError` for
an unknown session; `KeyError` for a missing dict key or column), and
`lengthMismatch` models the pandas/numpy length-mismatch `ValueError`
raised when a wrongly sized array is assigned to a column.
`formatError`, `configReadError` and `emptyWindow` are the error classes
named by the specification; the source never defines or raises them — the
constructors exist only so that claims about them can be stated. -/
inductive FcError where
  | valueError | keyError | lengthMismatch | formatError | configReadError | emptyWindow
deriving DecidableEq

/-- Python `float -> int` conversion (`astype('int')`): truncation toward
zero.  Both branches divide nonnegative integers, where every integer
division convention agrees. -/
def pyTrunc (q : ℚ) : Int :=
  if q < 0 then -((-q).num / ((-q).den : Int)) else q.num / (q.den : Int)

/-- One cell through `astype('int')`.  Converting a missing value is a
pandas error; a string cell is unreachable under a numeric dtype. -/
def astypeIntCell : Cell → Except FcError Cell
  | .intC n => .ok (.intC n)
  | .ratC q => .ok (.intC (pyTrunc q))
  | .null => .error .valueError
  | .strC _ => .error .valueError

/-- One cell through `astype('str')` after the integer conversion. -/
def astypeStrCell : Cell → Cell
  | .intC n => .strC (toString n)
  | c => c

/-- Embeds `astype('int')` over a whole column: all cells convert or the
operation fails. -/
def mapCellsToInt : List Cell → Except FcError (List Cell)
  | [] => .ok []
  | c :: cs =>
      match astypeIntCell c with
      | .error e => .error e
      | .ok c2 =>
          match mapCellsToInt cs with
          | .error e => .error e
          | .ok cs2 => .ok (c2 :: cs2)

/-- Embeds `df.reindex(columns=names)`: exactly the requested columns, in the
requested order; a requested name absent from the frame becomes an
all-null column. -/
def DF.reindexCols (df : DF) (names : List String) : DF :=
  ⟨names.map (fun n => (n, (df.getCol n).getD (List.replicate df.nrows Cell.null)))⟩

def renameMap : List (String × String) → String → String
  | [], n => n
  | c :: rest, n => if c.1 = n then c.2 else renameMap rest n

/-- Embeds `df.rename(columns=m)`: map each column name through the dictionary,
leaving unmatched names unchanged. -/
def DF.renameCols (df : DF) (m : List (String × String)) : DF :=
  ⟨df.cols.map (fun c => (renameMap m c.1, c.2))⟩

/-- The experiment descriptor (expt_info.yaml) as `load_data` reads it.
`sessionFiles` holds the per-session `"{session}_file"` keys as an
explicit partial map: the source looks the key up with a bare `dict`
subscript, so a missing key is a `KeyError`.  The remaining fields the
claims exercise are total.  The raw/processed path selection only chooses
which file is read and is invisible here because the parsed frame is an
argument. -/
structure ExptConfig where
  sessions : List String
  rawData : Bool
  sessionFiles : List (String × String)
  groupIds : List (String × List String)
  sex : Bool
  sexIds : List (String × List String)
deriving DecidableEq

def lookupKey : List (String × String) → String → Option String
  | [], _ => none
  | c :: rest, n => if c.1 = n then some c.2 else lookupKey rest n

/-- The shared shape of the two `.loc` fill loops of lines 93-97: for each
(label, id-set) pair in mapping order, write the label into `colName` on
the rows whose Animal is in the set; the mask is recomputed from the
frame's current Animal column at every iteration. -/
def fillFromIds (colName : String) (ids : List (String × List String)) (df : DF) : DF :=
  ids.foldl
    (fun d kv =>
      d.setColWhere colName (isinMask ((d.getCol "Animal").getD []) kv.2) (.strC kv.1)) df

/-- Lines 92-94: `for key, val in expt_cfg['group_ids'].items():
df.loc[df['Animal'].isin(val), 'Group'] = key`. -/
def assign_groups (groupIds : List (String × List String)) (df : DF) : DF :=
  fillFromIds "Group" groupIds df

/-- Characterization device for the fill loops: the final value of one
target-column cell, given the row's animal cell, as the fold of the
per-entry overwrite. -/
def applyCellGroups (g : List (String × List String)) (ac oc : Cell) : Cell :=
  g.foldl (fun c kv => if animalMatches kv.2 ac then .strC kv.1 else c) oc

/-- Characterization device for the fill loops: the final target column,
given a fixed animal column `a` and the starting column `o`. -/
def applyGroupsCol (g : List (String × List String)) (a o : List Cell) : List Cell :=
  g.foldl (fun col kv => maskWrite col (isinMask a kv.2) (.strC kv.1)) o

/-- Lines 95-97: the same loop writing `Sex`, run only when
`expt_cfg['sex'] is True`. -/
def assign_sex (sexIds : List (String × List String)) (df : DF) : DF :=
  fillFromIds "Sex" sexIds df

def oldColList : List String :=
  ["Animal", "Group", "Component Name", "Pct Component Time Freezing", "Avg Motion Index"]

def newColList : List String :=
  ["Animal", "Group", "Component", "PctFreeze", "AvgMotion"]

/-- Lines 79-80: `if df['Animal'].dtype is np.dtype('float64') or ... :
df.loc[:, 'Animal'] = df['Animal'].astype('int').astype('str')`, given the
frame's Animal column `acol`. -/
def convertAnimal (df : DF) (acol : List Cell) : Except FcError DF :=
  if colDtype acol = .float64 ∨ colDtype acol = .int64 then
    match mapCellsToInt acol with
    | .error e => .error e
    | .ok icol => .ok (df.setColAll "Animal" (icol.map astypeStrCell))
  else .ok df

/-- Lines 82-97: column selection/renaming followed by the group fill and
the sex fill (the latter only when `expt_cfg['sex'] is True`). -/
def finalizeFrame (cfg : ExptConfig) (df2 : DF) : DF :=
  let df3 := (df2.reindexCols oldColList).renameCols (oldColList.zip newColList)
  let df4 := assign_groups cfg.groupIds df3
  if cfg.sex then assign_sex cfg.sexIds df4 else df4

/-- Embeds `load_data` (fc_dat.py lines 35-99).  File IO and csv parsing are
external collaborators: `raw` is the frame `pd.read_csv` produced from the
session's file (the `find_start` preamble skip happens inside that read).
The steps in order: session validation, the `{session}_file` key lookup,
the clean step of line 77, the Animal dtype check and string conversion of
lines 79-80, column selection and renaming of lines 82-88, and the
group/sex fills of lines 90-97. -/
def load_data (cfg : ExptConfig) (session : String) (raw : DF) : Except FcError DF :=
  if memStr (strLower session) cfg.sessions = false then .error .valueError
  else
    match lookupKey cfg.sessionFiles (strLower session ++ "_file") with
    | none => .error .keyError
    | some _ =>
      match (cleanStep raw).getCol "Animal" with
      | none => .error .keyError
      | some acol =>
        match convertAnimal (cleanStep raw) acol with
        | .error e => .error e
        | .ok df2 => .ok (finalizeFrame cfg df2)

/-!
## Trial windowing (fc_dat.py `tfc_trials_df`, lines 248-287)

At this stage `label_fc_data` has already replaced Component by evenly
spaced session timestamps.  `tfc_trials_df` tags each row with a Trial
number per tone window, drops rows with any missing value (`df.dropna()`,
line 281), and tiles an evenly spaced `trial_time` axis over the result.
A row here is an animal id, a timestamp, and the remaining cell values
(Group, Sex, epoch, PctFreeze, AvgMotion — any of which may be missing,
which is what `dropna` keys on); the Trial tag is carried separately as an
`Option`, mirroring the NaN-initialized Trial column.
-/

structure TRow where
  animal : String
  comp : ℚ
  extra : List Cell
deriving DecidableEq

structure TrialRow where
  row : TRow
  trial : Nat
  trial_time : ℚ
deriving DecidableEq

/-- numpy `linspace a b n` (endpoint=True): `n` evenly spaced values from
`a` to `b`. -/
def linspace (a b : ℚ) (n : Nat) : List ℚ :=
  match n with
  | 0 => []
  | 1 => [a]
  | m + 2 =>
      (List.range (m + 2)).map (fun i : ℕ => a + (b - a) * (i : ℚ) / ((m : ℚ) + 1))

/-- Floor of a rational (`Int.fdiv` floors, and denominators are
positive). -/
def ratFloor (q : ℚ) : Int := Int.fdiv q.num q.den

/-- numpy rounding (`np.around`) rounds half to even. -/
def roundHalfEven (q : ℚ) : Int :=
  let f := ratFloor q
  let r := q - (f : ℚ)
  if r < 1/2 then f
  else if 1/2 < r then f + 1
  else if f % 2 = 0 then f else f + 1

/-- Embeds `np.around(x, 1)`: round to one decimal place. -/
def round1 (q : ℚ) : ℚ := (roundHalfEven (q * 10) : ℚ) / 10

/-- Embeds `np.tile`. -/
def tile {α : Type} (l : List α) (k : Nat) : List α := (List.replicate k l).flatten

/-- Lines 269 and 275-277: the tone windows in boundary-table order — one
per component whose phase label contains "tone", spanning
`[start + win_start, start + win_end]`. -/
def toneWindows (compLabs : List (String × ℚ × ℚ)) (ws we : ℚ) : List (ℚ × ℚ) :=
  (compLabs.filter (fun b => strContains b.1 "tone")).map (fun b => (b.2.1 + ws, b.2.1 + we))

/-- The Trial tag a timestamp carries after the assignment loop of lines
275-279: the 1-based index of the last window containing it (later
iterations overwrite earlier ones where windows overlap), or none. -/
def assignTrialAux (t : ℚ) : List (ℚ × ℚ) → Nat → Option Nat → Option Nat
  | [], _, acc => acc
  | w :: rest, i, acc =>
      assignTrialAux t rest (i + 1) (if w.1 ≤ t ∧ t ≤ w.2 then some i else acc)

def assignTrial (wins : List (ℚ × ℚ)) (t : ℚ) : Option Nat :=
  assignTrialAux t wins 1 none

/-- The tagging combined with line 281's `df.dropna()`: keep exactly the
rows that received a Trial tag and have no missing value in any other
column, in order. -/
def keptRows (wins : List (ℚ × ℚ)) (rows : List TRow) : List (TRow × Nat) :=
  rows.filterMap (fun r =>
    match assignTrial wins r.comp with
    | none => none
    | some t => if r.extra.all (fun c => !c.isNull) then some (r, t) else none)

/-- Line 284's query count: the number of surviving rows sharing the
first surviving row's Animal and Trial. -/
def firstAnimalTrialCount (kept : List (TRow × Nat)) : Nat :=
  match kept with
  | [] => 0
  | k0 :: _ => (kept.filter (fun x => decide (x.1.animal = k0.1.animal) &&
      decide (x.2 = k0.2))).length

/-- Embeds `tfc_trials_df` (lines 248-287) after `label_fc_data`: tag tone-window
trials, `dropna`, then assign `np.tile(np.around(np.linspace(win_start,
win_end, m), 1), n_trials * n_subjects)` as `trial_time`.  `n_subjects`
counts the distinct animals of the full labelled frame (line 271, before
any filtering).  Indexing `df.Animal[0]` on an empty frame (line 284) is a
`KeyError`; assigning a wrongly sized `trial_time` array (line 285) is the
pandas length-mismatch error.  The source defines no `EmptyWindowError`
anywhere. -/
def tfc_trials_core (compLabs : List (String × ℚ × ℚ)) (ws we : ℚ) (rows : List TRow) :
    Except FcError (List TrialRow) :=
  match keptRows (toneWindows compLabs ws we) rows with
  | [] => .error .keyError
  | k0 :: krest =>
      if (tile ((linspace ws we (firstAnimalTrialCount (k0 :: krest))).map round1)
          ((toneWindows compLabs ws we).length *
            (rows.map (fun r => r.animal)).dedup.length)).length = (k0 :: krest).length then
        .ok (((k0 :: krest).zip
          (tile ((linspace ws we (firstAnimalTrialCount (k0 :: krest))).map round1)
            ((toneWindows compLabs ws we).length *
              (rows.map (fun r => r.animal)).dedup.length))).map
          (fun p => ⟨p.1.1, p.1.2, p.2⟩))
      else .error .lengthMismatch

/-- The trial window, surviving-row set, and trial-time axis of the C5
scenario: a single boundary entry {phase "tone-1", start 100, end 110}
with window offsets -20 and +60. -/
def c5Kept (rows : List TRow) : List (TRow × Nat) :=
  keptRows (toneWindows [("tone-1", 100, 110)] (-20) 60) rows

def c5M (rows : List TRow) : Nat := firstAnimalTrialCount (c5Kept rows)

def c5Axis (rows : List TRow) : List ℚ := (linspace (-20) 60 (c5M rows)).map round1

/-! ## Lemmas about the phase classifier -/

theorem memStr_iff (t : String) (l : List String) : memStr t l = true ↔ t ∈ l := by
  induction l with
  | nil => simp [memStr]
  | cons s rest ih => simp [memStr, ih]

theorem classifyPhase_mem (bvals : List String) (t : String) :
    classifyPhase bvals t ∈ (["baseline", "tone", "trace", "iti"] : List String) := by
  unfold classifyPhase
  by_cases h : memStr (if strContains (if strContains (if memStr t bvals then "baseline" else t)
      "tone" then "tone" else if memStr t bvals then "baseline" else t) "trace" then "trace"
      else if strContains (if memStr t bvals then "baseline" else t) "tone" then "tone"
      else if memStr t bvals then "baseline" else t) ["baseline", "tone", "trace"] = true
  · simp only [h, if_true]
    have := (memStr_iff _ _).mp h
    simp only [List.mem_cons, List.mem_singleton] at this ⊢
    tauto
  · simp only [Bool.not_eq_true] at h
    simp [h]

theorem classifyPhase_of_mem (bvals : List String) (t : String)
    (h : memStr t bvals = true) : classifyPhase bvals t = "baseline" := by
  simp only [classifyPhase, h, if_true]
  decide

theorem classifyPhase_baseline_lit (bvals : List String) :
    classifyPhase bvals "baseline" = "baseline" := by
  by_cases h : memStr "baseline" bvals = true
  · exact classifyPhase_of_mem bvals _ h
  · simp only [Bool.not_eq_true] at h
    simp only [classifyPhase, h, if_false]
    decide

theorem classifyPhase_eq_tone (bvals : List String) (t : String)
    (h : classifyPhase bvals t = "tone") :
    memStr t bvals = false ∧ strContains t "tone" = true := by
  by_cases hm : memStr t bvals = true
  · rw [classifyPhase_of_mem bvals t hm] at h
    exact absurd h (by decide)
  · simp only [Bool.not_eq_true] at hm
    refine ⟨hm, ?_⟩
    by_cases hc : strContains t "tone" = true
    · exact hc
    · simp only [Bool.not_eq_true] at hc
      exfalso
      by_cases hr : strContains t "trace" = true
      · simp [classifyPhase, hm, hc, hr, memStr] at h
      · simp only [Bool.not_eq_true] at hr
        by_cases hl : memStr t ["baseline", "tone", "trace"] = true
        · simp only [classifyPhase, hm, hc, hr, hl, Bool.false_eq_true, if_false, if_true] at h
          rw [h] at hc
          exact absurd hc (by decide)
        · simp only [Bool.not_eq_true] at hl
          simp only [classifyPhase, hm, hc, hr, hl, Bool.false_eq_true, if_false] at h
          exact absurd h (by decide)

theorem classifyPhase_eq_trace (bvals : List String) (t : String)
    (h : classifyPhase bvals t = "trace") :
    memStr t bvals = false ∧ strContains t "trace" = true := by
  by_cases hm : memStr t bvals = true
  · rw [classifyPhase_of_mem bvals t hm] at h
    exact absurd h (by decide)
  · simp only [Bool.not_eq_true] at hm
    refine ⟨hm, ?_⟩
    by_cases hc : strContains t "trace" = true
    · exact hc
    · simp only [Bool.not_eq_true] at hc
      exfalso
      by_cases ht : strContains t "tone" = true
      · have hg : strContains "tone" "trace" = false := by decide
        have hg2 : memStr "tone" ["baseline", "tone", "trace"] = true := by decide
        simp only [classifyPhase, hm, ht, hg, hg2, Bool.false_eq_true, eq_self_iff_true,
          if_false, if_true] at h
        exact absurd h (by decide)
      · simp only [Bool.not_eq_true] at ht
        by_cases hl : memStr t ["baseline", "tone", "trace"] = true
        · simp only [classifyPhase, hm, hc, ht, hl, Bool.false_eq_true, if_false, if_true] at h
          rw [h] at hc
          exact absurd hc (by decide)
        · simp only [Bool.not_eq_true] at hl
          simp only [classifyPhase, hm, hc, ht, hl, Bool.false_eq_true, if_false] at h
          exact absurd h (by decide)

theorem classifyPhase_iti (bvals : List String) (t : String)
    (hm : memStr t bvals = false) (h1 : strContains t "tone" = false)
    (h2 : strContains t "trace" = false) (h3 : t ≠ "baseline") :
    classifyPhase bvals t = "iti" := by
  have ht1 : t ≠ "tone" := by
    intro hEq; rw [hEq] at h1; exact absurd h1 (by decide)
  have ht2 : t ≠ "trace" := by
    intro hEq; rw [hEq] at h2; exact absurd h2 (by decide)
  have hl : memStr t ["baseline", "tone", "trace"] = false := by
    simp [memStr, h3, ht1, ht2]
  simp [classifyPhase, hm, h1, h2, hl]

/-! ## Claims C2, C3, C4 -/

/-- Claim C2: for any input component column, the Phase column produced by
the `clean_data` phase derivation takes values only from the closed set
{baseline, tone, trace, iti} when the session is not the context session,
and every row's Phase equals "context" when it is the context session. -/
theorem C2_phase_closed_set (isContext : Bool) (comps : List String) (p : String)
    (hp : p ∈ derive_phase isContext comps) :
    (isContext = false → p ∈ (["baseline", "tone", "trace", "iti"] : List String)) ∧
    (isContext = true → p = "context") := by
  constructor
  · intro hb; subst hb
    simp only [derive_phase, Bool.false_eq_true, if_false] at hp
    obtain ⟨t, _, rfl⟩ := List.mem_map.mp hp
    exact classifyPhase_mem _ t
  · intro hb; subst hb
    simp only [derive_phase, eq_self_iff_true, if_true] at hp
    obtain ⟨t, _, h⟩ := List.mem_map.mp hp
    exact h.symm

theorem C2_phase_closed_set_witness :
    "baseline" ∈ derive_phase false ["a", "tone-1"] ∧
    "baseline" ∈ (["baseline", "tone", "trace", "iti"] : List String) ∧
    "context" ∈ derive_phase true ["5"] ∧ "context" = "context" := by
  refine ⟨by decide, ?_, by decide, ?_⟩
  · exact (C2_phase_closed_set false ["a", "tone-1"] "baseline" (by decide)).1 rfl
  · exact (C2_phase_closed_set true ["5"] "context" (by decide)).2 rfl

/-- Claim C3 counterexample: with components
`["habituation", "Tone-1", "Baseline"]` the third token (lower-cased
"baseline") lies outside the baseline prefix `["habituation"]`, contains
neither "tone" nor "trace", yet is classified "baseline" and not "iti" as
the claim's final clause ("every remaining token gets iti") requires. -/
theorem C3_counterexample :
    get_baseline_vals (["habituation", "Tone-1", "Baseline"].map strLower) = ["habituation"] ∧
    memStr "baseline" ["habituation"] = false ∧
    strContains "baseline" "tone" = false ∧
    strContains "baseline" "trace" = false ∧
    (derive_phase false ["habituation", "Tone-1", "Baseline"])[2]? = some "baseline" := by
  decide

/-- Claim C3 (amended): every token in the contiguous prefix preceding the
first case-insensitive "tone-1" is classified baseline, even when it
contains "tone" or "trace"; the substring tests assign tone/trace only to
tokens outside that prefix whose value is also not a baseline-prefix
value; and every remaining token is classified iti, except that a token
whose lower-cased value coincides with a baseline-prefix value or with the
literal string "baseline" is classified baseline. -/
theorem C3_baseline_prefix_precedence (comps : List String) (i : Nat) (t : String)
    (ht : (comps.map strLower)[i]? = some t) :
    (i < (get_baseline_vals (comps.map strLower)).length →
       (derive_phase false comps)[i]? = some "baseline") ∧
    (memStr t (get_baseline_vals (comps.map strLower)) = true →
       (derive_phase false comps)[i]? = some "baseline") ∧
    (t = "baseline" → (derive_phase false comps)[i]? = some "baseline") ∧
    ((derive_phase false comps)[i]? = some "tone" →
       (get_baseline_vals (comps.map strLower)).length ≤ i ∧
       memStr t (get_baseline_vals (comps.map strLower)) = false ∧
       strContains t "tone" = true) ∧
    ((derive_phase false comps)[i]? = some "trace" →
       (get_baseline_vals (comps.map strLower)).length ≤ i ∧
       memStr t (get_baseline_vals (comps.map strLower)) = false ∧
       strContains t "trace" = true) ∧
    (memStr t (get_baseline_vals (comps.map strLower)) = false →
       strContains t "tone" = false → strContains t "trace" = false →
       t ≠ "baseline" → (derive_phase false comps)[i]? = some "iti") := by
  have hres : (derive_phase false comps)[i]? =
      some (classifyPhase (get_baseline_vals (comps.map strLower)) t) := by
    simp only [derive_phase, Bool.false_eq_true, if_false]
    rw [List.getElem?_map, ht]
    rfl
  have hmem_of_lt : i < (get_baseline_vals (comps.map strLower)).length →
      memStr t (get_baseline_vals (comps.map strLower)) = true := by
    intro hi
    have hpre : get_baseline_vals (comps.map strLower) <+: comps.map strLower := by
      simp only [get_baseline_vals]
      exact List.takeWhile_prefix _
    have h2 := List.IsPrefix.getElem hpre hi
    have h3 : (get_baseline_vals (comps.map strLower))[i]? = some t := by
      rw [List.getElem?_eq_getElem hi, h2]
      rw [List.getElem?_eq_getElem (hi.trans_le hpre.length_le)] at ht
      exact ht
    exact (memStr_iff _ _).mpr (List.getElem?_mem h3)
  refine ⟨?_, ?_, ?_, ?_, ?_, ?_⟩
  · intro hi
    rw [hres]
    exact congrArg some (classifyPhase_of_mem _ _ (hmem_of_lt hi))
  · intro hm
    rw [hres]
    exact congrArg some (classifyPhase_of_mem _ _ hm)
  · intro hEq
    subst hEq
    rw [hres]
    exact congrArg some (classifyPhase_baseline_lit _)
  · intro h
    have hcl : classifyPhase (get_baseline_vals (comps.map strLower)) t = "tone" :=
      Option.some.inj (hres.symm.trans h)
    obtain ⟨hm, hc⟩ := classifyPhase_eq_tone _ _ hcl
    refine ⟨?_, hm, hc⟩
    by_contra hn
    rw [hmem_of_lt (Nat.lt_of_not_le hn)] at hm
    exact absurd hm (by decide)
  · intro h
    have hcl : classifyPhase (get_baseline_vals (comps.map strLower)) t = "trace" :=
      Option.some.inj (hres.symm.trans h)
    obtain ⟨hm, hc⟩ := classifyPhase_eq_trace _ _ hcl
    refine ⟨?_, hm, hc⟩
    by_contra hn
    rw [hmem_of_lt (Nat.lt_of_not_le hn)] at hm
    exact absurd hm (by decide)
  · intro hm h1 h2 h3
    rw [hres]
    exact congrArg some (classifyPhase_iti _ _ hm h1 h2 h3)

theorem C3_baseline_prefix_precedence_witness :
    (["pre", "Tone-1"].map strLower)[0]? = some "pre" ∧
    (derive_phase false ["pre", "Tone-1"])[0]? = some "baseline" :=
  ⟨by decide, (C3_baseline_prefix_precedence ["pre", "Tone-1"] 0 "pre" (by decide)).1 (by decide)⟩

/-- Claim C4: on a record sequence where no cell has "Experiment" as a
prefix, the source `find_start` returns `None` silently (the loop falls
through without raising any error); the claim's `FormatError` is never
produced.  `pd.read_csv(file, skiprows=None)` then parses from the first
line. -/
theorem C4_find_start_returns_none (rows : List (List String))
    (h : rows.all (fun row => row.all (fun cell => !strStartsWith "Experiment" cell)) = true) :
    find_start rows "Experiment" = none := by
  have haux : ∀ (rs : List (List String)) (n : Nat),
      rs.all (fun row => row.all (fun cell => !strStartsWith "Experiment" cell)) = true →
      find_start_aux "Experiment" rs n = none := by
    intro rs
    induction rs with
    | nil => intro n _; rfl
    | cons row rest ih =>
      intro n hall
      rw [List.all_cons, Bool.and_eq_true] at hall
      have hany : row.any (fun cell => strStartsWith "Experiment" cell) = false := by
        rw [List.any_eq_false]
        intro x hx
        have := List.all_eq_true.mp hall.1 x hx
        simpa using this
      simp only [find_start_aux, hany, Bool.false_eq_true, if_false]
      exact ih (n + 1) hall.2
  exact haux rows 0 h

theorem C4_find_start_returns_none_witness :
    find_start [["Animal", "Group"], ["junk", "5"], [""]] "Experiment" = none :=
  C4_find_start_returns_none [["Animal", "Group"], ["junk", "5"], [""]] (by decide)

/-! ## Structural lemmas about the DataFrame operations -/

theorem setCols_map_fst_mem (cols : List (String × List Cell)) (n : String)
    (mask : List Bool) (v : Cell) (h : n ∈ cols.map Prod.fst) :
    (setCols cols n mask v).map Prod.fst = cols.map Prod.fst := by
  induction cols with
  | nil => simp at h
  | cons c rest ih =>
    simp only [List.map_cons, List.mem_cons] at h
    by_cases hc : c.1 = n
    · simp [setCols, hc]
    · have : n ∈ rest.map Prod.fst := by
        rcases h with h | h
        · exact absurd h.symm hc
        · exact h
      simp [setCols, hc, ih this]

theorem setCols_map_fst_not_mem (cols : List (String × List Cell)) (n : String)
    (mask : List Bool) (v : Cell) (h : n ∉ cols.map Prod.fst) :
    (setCols cols n mask v).map Prod.fst = cols.map Prod.fst ++ [n] := by
  induction cols with
  | nil => simp [setCols]
  | cons c rest ih =>
    simp only [List.map_cons, List.mem_cons] at h
    push_neg at h
    have hc : c.1 ≠ n := fun hh => h.1 hh.symm
    simp [setCols, hc, ih h.2]

theorem lookupCol_setCols_ne (cols : List (String × List Cell)) (n m : String)
    (mask : List Bool) (v : Cell) (h : m ≠ n) :
    lookupCol (setCols cols n mask v) m = lookupCol cols m := by
  induction cols with
  | nil =>
    simp only [setCols, lookupCol]
    rw [if_neg (fun hh => h hh.symm)]
  | cons c rest ih =>
    obtain ⟨c1, c2⟩ := c
    by_cases hc : c1 = n
    · subst hc
      simp only [setCols, if_pos rfl, lookupCol]
      rw [if_neg (fun hh => h hh.symm), if_neg (fun hh => h hh.symm)]
    · by_cases hm : c1 = m
      · subst hm
        simp [setCols, hc, lookupCol]
      · simp [setCols, hc, lookupCol, hm, ih]

theorem lookupCol_setColsAll_ne (cols : List (String × List Cell)) (n m : String)
    (col : List Cell) (h : m ≠ n) :
    lookupCol (setColsAll cols n col) m = lookupCol cols m := by
  induction cols with
  | nil => simp [setColsAll, lookupCol]
  | cons c rest ih =>
    obtain ⟨c1, c2⟩ := c
    by_cases hc : c1 = n
    · subst hc
      simp only [setColsAll, if_pos rfl, lookupCol]
      rw [if_neg (fun hh => h hh.symm), if_neg (fun hh => h hh.symm)]
    · by_cases hm : c1 = m
      · subst hm
        simp [setColsAll, hc, lookupCol]
      · simp [setColsAll, hc, lookupCol, hm, ih]

theorem lookupCol_setColsAll_self (cols : List (String × List Cell)) (n : String)
    (col old : List Cell) (h : lookupCol cols n = some old) :
    lookupCol (setColsAll cols n col) n = some col := by
  induction cols with
  | nil => simp [lookupCol] at h
  | cons c rest ih =>
    by_cases hc : c.1 = n
    · simp [setColsAll, hc, lookupCol]
    · simp only [lookupCol, hc, if_false] at h
      simp [setColsAll, hc, lookupCol, ih h]

theorem setColsAll_map_fst (cols : List (String × List Cell)) (n : String)
    (col : List Cell) :
    (setColsAll cols n col).map Prod.fst = cols.map Prod.fst := by
  induction cols with
  | nil => simp [setColsAll]
  | cons c rest ih =>
    by_cases hc : c.1 = n
    · simp [setColsAll, hc]
    · simp [setColsAll, hc, ih]

theorem setColsAll_self_id (cols : List (String × List Cell)) (n : String)
    (old : List Cell) (h : lookupCol cols n = some old) :
    setColsAll cols n old = cols := by
  induction cols with
  | nil => simp [lookupCol] at h
  | cons c rest ih =>
    by_cases hc : c.1 = n
    · simp only [lookupCol, hc, if_true] at h
      cases c with
      | mk c1 c2 =>
        simp only at hc
        simp only [Option.some.injEq] at h
        simp [setColsAll, hc, h]
    · simp only [lookupCol, hc, if_false] at h
      simp [setColsAll, hc, ih h]

theorem setColsAll_setColsAll (cols : List (String × List Cell)) (n : String)
    (x y : List Cell) :
    setColsAll (setColsAll cols n x) n y = setColsAll cols n y := by
  induction cols with
  | nil => simp [setColsAll]
  | cons c rest ih =>
    by_cases hc : c.1 = n
    · simp [setColsAll, hc]
    · simp [setColsAll, hc, ih]

theorem setCols_eq_setColsAll_maskWrite (cols : List (String × List Cell)) (n : String)
    (mask : List Bool) (v : Cell) (old : List Cell) (h : lookupCol cols n = some old) :
    setCols cols n mask v = setColsAll cols n (maskWrite old mask v) := by
  induction cols with
  | nil => simp [lookupCol] at h
  | cons c rest ih =>
    by_cases hc : c.1 = n
    · simp only [lookupCol, hc, if_true, Option.some.injEq] at h
      simp [setCols, setColsAll, hc, h]
    · simp only [lookupCol, hc, if_false] at h
      simp [setCols, setColsAll, hc, ih h]

/-! ## Lemmas about the fill loops -/

theorem fillFromIds_getCol_ne (c : String) (g : List (String × List String)) (df : DF)
    (n : String) (h : n ≠ c) : (fillFromIds c g df).getCol n = df.getCol n := by
  induction g generalizing df with
  | nil => rfl
  | cons kv rest ih =>
    show (fillFromIds c rest _).getCol n = _
    rw [ih]
    exact lookupCol_setCols_ne _ _ _ _ _ h

theorem fillFromIds_colNames_mem (c : String) (g : List (String × List String)) (df : DF)
    (h : c ∈ df.colNames) : (fillFromIds c g df).colNames = df.colNames := by
  induction g generalizing df with
  | nil => rfl
  | cons kv rest ih =>
    show (fillFromIds c rest _).colNames = _
    have hstep : (df.setColWhere c (isinMask ((df.getCol "Animal").getD []) kv.2)
        (.strC kv.1)).colNames = df.colNames :=
      setCols_map_fst_mem _ _ _ _ h
    rw [ih _ (by rw [hstep]; exact h), hstep]

theorem fillFromIds_colNames_not_mem (c : String) (g : List (String × List String))
    (df : DF) (hg : g ≠ []) (h : c ∉ df.colNames) :
    (fillFromIds c g df).colNames = df.colNames ++ [c] := by
  cases g with
  | nil => exact absurd rfl hg
  | cons kv rest =>
    show (fillFromIds c rest _).colNames = _
    have hstep : (df.setColWhere c (isinMask ((df.getCol "Animal").getD []) kv.2)
        (.strC kv.1)).colNames = df.colNames ++ [c] :=
      setCols_map_fst_not_mem _ _ _ _ h
    rw [fillFromIds_colNames_mem _ _ _ (by rw [hstep]; simp), hstep]

/-! ## Claims C9 and C1 -/

/-- Claim C9: with a configuration descriptor that lists "train" as a
valid session but is missing the required "train_file" key, `load_data`
fails with the bare dict-subscript `KeyError` of line 54 — an unrelated
key-lookup failure — and not with the `FormatError`/`ConfigReadError` the
specification requires to be reported. -/
theorem C9_missing_session_file_key :
    load_data ⟨["train"], true, [], [("cre", ["1"])], false, []⟩ "train" ⟨[]⟩ =
      .error .keyError ∧
    FcError.keyError ≠ FcError.formatError ∧
    FcError.keyError ≠ FcError.configReadError := by decide

/-- Claim C1 counterexample: a valid session of a configuration that
records sex (`sex: true` with a nonempty `sex_ids` mapping) loads to a
table with a sixth column `Sex` in addition to the five canonical names,
so the loaded columns are not "exactly the five canonical column names ...
and no others" for every configuration.  (The extra source column
"Experiment" is dropped, as the claim says.) -/
theorem C1_counterexample :
    (load_data ⟨["train"], true, [("train_file", "t.csv")], [("cre", ["1"])], true,
        [("F", ["1"])]⟩
        "train"
        ⟨[("Animal", [.strC "1"]), ("Group", [.null]), ("Component Name", [.strC "baseline-1"]),
          ("Pct Component Time Freezing", [.intC 10]), ("Avg Motion Index", [.intC 5]),
          ("Experiment", [.strC "x"])]⟩).map DF.colNames =
      .ok ["Animal", "Group", "Component", "PctFreeze", "AvgMotion", "Sex"] ∧
    (["Animal", "Group", "Component", "PctFreeze", "AvgMotion", "Sex"] : List String) ≠
      ["Animal", "Group", "Component", "PctFreeze", "AvgMotion"] := by decide

/-- Inversion of a successful `load_data`: there is a post-conversion
frame `df2` such that the result is `finalizeFrame cfg df2`. -/
theorem load_data_ok_inv (cfg : ExptConfig) (session : String) (raw : DF) (df : DF)
    (hok : load_data cfg session raw = .ok df) :
    ∃ acol df2, (cleanStep raw).getCol "Animal" = some acol ∧
      convertAnimal (cleanStep raw) acol = .ok df2 ∧ df = finalizeFrame cfg df2 := by
  unfold load_data at hok
  split at hok
  · exact absurd hok (by simp)
  · split at hok
    · exact absurd hok (by simp)
    · split at hok
      · exact absurd hok (by simp)
      · rename_i acol heq
        split at hok
        · exact absurd hok (by simp)
        · rename_i df2 heq2
          exact ⟨acol, df2, heq, heq2, (Except.ok.inj hok).symm⟩

/-- The columns of the finalized frame: the five canonical names, plus
`Sex` exactly when the sex fill runs over a nonempty mapping. -/
theorem finalizeFrame_colNames (cfg : ExptConfig) (df2 : DF) :
    (finalizeFrame cfg df2).colNames =
      newColList ++ (if cfg.sex = true ∧ cfg.sexIds ≠ [] then ["Sex"] else []) := by
  have hnames3 : ((df2.reindexCols oldColList).renameCols
      (oldColList.zip newColList)).colNames = newColList := rfl
  have hgmem : "Group" ∈ newColList := by decide
  have h4 : (assign_groups cfg.groupIds ((df2.reindexCols oldColList).renameCols
      (oldColList.zip newColList))).colNames = newColList := by
    rw [assign_groups, fillFromIds_colNames_mem _ _ _ (by rw [hnames3]; exact hgmem), hnames3]
  unfold finalizeFrame
  cases hsex : cfg.sex with
  | false =>
    simp only [Bool.false_eq_true, if_false]
    rw [h4]
    simp [hsex]
  | true =>
    simp only [if_true]
    cases hids : cfg.sexIds with
    | nil =>
      simp only [assign_sex, fillFromIds, List.foldl_nil]
      rw [h4]
      simp
    | cons kv rest =>
      rw [assign_sex, fillFromIds_colNames_not_mem _ _ _ (by simp)
        (by rw [h4]; decide), h4]
      simp

/-- Claim C1 (amended): for every valid session of every configuration, a
successful `load_data` returns a table whose columns are exactly the five
canonical names — regardless of extra columns in the source — except that
a configuration recording sex (`sex: true` with nonempty `sex_ids`)
appends a sixth column `Sex`. -/
theorem C1_canonical_columns (cfg : ExptConfig) (session : String) (raw : DF) (df : DF)
    (hok : load_data cfg session raw = .ok df) :
    df.colNames = newColList ++ (if cfg.sex = true ∧ cfg.sexIds ≠ [] then ["Sex"] else []) := by
  obtain ⟨acol, df2, _, _, hdf⟩ := load_data_ok_inv cfg session raw df hok
  rw [hdf]
  exact finalizeFrame_colNames cfg df2

/-! ## Claim C7: Animal canonicalization -/

theorem lookupCol_map_snd (cols : List (String × List Cell)) (g : List Cell → List Cell)
    (n : String) :
    lookupCol (cols.map (fun c => (c.1, g c.2))) n = (lookupCol cols n).map g := by
  induction cols with
  | nil => simp [lookupCol]
  | cons c rest ih =>
    by_cases hc : c.1 = n
    · simp [lookupCol, hc]
    · simp [lookupCol, hc, ih]

theorem lookupCol_mem_snd (cols : List (String × List Cell)) (n : String)
    (col : List Cell) (h : lookupCol cols n = some col) : col ∈ cols.map Prod.snd := by
  induction cols with
  | nil => simp [lookupCol] at h
  | cons c rest ih =>
    by_cases hc : c.1 = n
    · simp only [lookupCol, hc, if_true, Option.some.injEq] at h
      simp [h.symm]
    · simp only [lookupCol, hc, if_false] at h
      simp [ih h]

theorem cleanStep_getCol_ne (raw : DF) (n : String) (h : n ≠ "index") :
    (cleanStep raw).getCol n = (raw.getCol n).map
      (fun col => maskFilter (col.map replaceNanCell)
        (DF.keepMask ⟨raw.cols.map (fun c => (c.1, c.2.map replaceNanCell))⟩)) := by
  unfold cleanStep DF.getCol
  simp only [lookupCol]
  rw [if_neg (fun hh => h hh.symm)]
  rw [lookupCol_map_snd (raw.cols.map (fun c => (c.1, List.map replaceNanCell c.2)))
    (fun col => maskFilter col
      (DF.keepMask ⟨raw.cols.map (fun c => (c.1, List.map replaceNanCell c.2))⟩)) n]
  rw [lookupCol_map_snd raw.cols (fun col => List.map replaceNanCell col) n, Option.map_map]
  rfl

theorem all_maskFilter {α : Type} (P : α → Bool) (l : List α) (m : List Bool)
    (h : l.all P = true) : (maskFilter l m).all P = true := by
  induction l generalizing m with
  | nil => cases m <;> simp [maskFilter]
  | cons c cs ih =>
    rw [List.all_cons, Bool.and_eq_true] at h
    cases m with
    | nil => simp [maskFilter]
    | cons b bs =>
      cases b
      · simp only [maskFilter, Bool.false_eq_true, if_false]
        exact ih bs h.2
      · simp only [maskFilter, if_true, List.all_cons, Bool.and_eq_true]
        exact ⟨h.1, ih bs h.2⟩

theorem all_map_of_pointwise {α : Type} (P : α → Bool) (f : α → α)
    (hf : ∀ c, P c = true → P (f c) = true) (l : List α) (h : l.all P = true) :
    (l.map f).all P = true := by
  rw [List.all_map]
  rw [List.all_eq_true] at h ⊢
  exact fun c hc => hf c (h c hc)

theorem replaceNan_strNull (c : Cell) (h : (c.isStr || c.isNull) = true) :
    ((replaceNanCell c).isStr || (replaceNanCell c).isNull) = true := by
  cases c with
  | strC s =>
    by_cases hs : Cell.strC s = Cell.strC "nan"
    · simp [replaceNanCell, hs, Cell.isNull]
    · simp [replaceNanCell, hs, Cell.isStr]
  | null => simp [replaceNanCell, Cell.isNull]
  | intC n => simp [Cell.isStr, Cell.isNull] at h
  | ratC q => simp [Cell.isStr, Cell.isNull] at h

theorem replaceNan_int (c : Cell) (h : c.isInt = true) :
    (replaceNanCell c).isInt = true := by
  cases c <;> simp_all [replaceNanCell, Cell.isInt]

theorem replaceNan_floaty (c : Cell) (h : (c.isRat || c.isInt || c.isNull) = true) :
    ((replaceNanCell c).isRat || (replaceNanCell c).isInt || (replaceNanCell c).isNull) = true := by
  cases c <;> simp_all [replaceNanCell, Cell.isRat, Cell.isInt, Cell.isNull]

theorem homogeneousCol_clean (col : List Cell) (m : List Bool)
    (h : homogeneousCol col = true) :
    homogeneousCol (maskFilter (col.map replaceNanCell) m) = true := by
  simp only [homogeneousCol, Bool.or_eq_true] at h ⊢
  rcases h with (h | h) | h
  · exact Or.inl (Or.inl (all_maskFilter _ _ _ (all_map_of_pointwise _ _ replaceNan_strNull _ h)))
  · exact Or.inl (Or.inr (all_maskFilter _ _ _ (all_map_of_pointwise _ _ replaceNan_int _ h)))
  · exact Or.inr (all_maskFilter _ _ _ (all_map_of_pointwise _ _ replaceNan_floaty _ h))

theorem astypeIntCell_ok (c c2 : Cell) (h : astypeIntCell c = .ok c2) :
    c2.isInt = true := by
  cases c <;> simp only [astypeIntCell] at h
  · exact absurd h (by simp)
  · rw [Except.ok.injEq] at h
    rw [h.symm]
    rfl
  · rw [Except.ok.injEq] at h
    rw [h.symm]
    rfl
  · exact absurd h (by simp)

theorem mapCellsToInt_ok_isInt (l l2 : List Cell) (h : mapCellsToInt l = .ok l2) :
    l2.all Cell.isInt = true := by
  induction l generalizing l2 with
  | nil =>
    simp only [mapCellsToInt, Except.ok.injEq] at h
    rw [h.symm]
    rfl
  | cons c cs ih =>
    simp only [mapCellsToInt] at h
    split at h
    · exact absurd h (by simp)
    · rename_i c2 hc2
      split at h
      · exact absurd h (by simp)
      · rename_i cs2 hcs2
        rw [Except.ok.injEq] at h
        rw [h.symm, List.all_cons, Bool.and_eq_true]
        exact ⟨astypeIntCell_ok c c2 hc2, ih cs2 hcs2⟩

theorem all_isStr_astypeStr (l : List Cell) (h : l.all Cell.isInt = true) :
    (l.map astypeStrCell).all Cell.isStr = true := by
  rw [List.all_map, List.all_eq_true]
  rw [List.all_eq_true] at h
  intro c hc
  have := h c hc
  cases c <;> simp_all [astypeStrCell, Cell.isInt, Cell.isStr]

theorem all_isStr_imp_strNull (l : List Cell) (h : l.all Cell.isStr = true) :
    l.all (fun c => c.isStr || c.isNull) = true := by
  rw [List.all_eq_true] at h ⊢
  intro c hc
  rw [Bool.or_eq_true]
  exact Or.inl (h c hc)

theorem homog_object_strNull (col : List Cell) (hh : homogeneousCol col = true)
    (h1 : colDtype col ≠ .int64) (h2 : colDtype col ≠ .float64) :
    col.all (fun c => c.isStr || c.isNull) = true := by
  by_cases hs : col.any Cell.isStr = true
  · simp only [homogeneousCol, Bool.or_eq_true] at hh
    obtain ⟨x, hx, hxs⟩ := List.any_eq_true.mp hs
    rcases hh with (hh | hh) | hh
    · exact hh
    · have := List.all_eq_true.mp hh x hx
      cases x <;> simp_all [Cell.isStr, Cell.isInt]
    · have := List.all_eq_true.mp hh x hx
      cases x <;> simp_all [Cell.isStr, Cell.isRat, Cell.isInt, Cell.isNull]
  · simp only [Bool.not_eq_true] at hs
    by_cases he : col.isEmpty = true
    · rw [List.isEmpty_iff.mp he]
      rfl
    · simp only [Bool.not_eq_true] at he
      by_cases hi : col.all Cell.isInt = true
      · exact absurd (by simp [colDtype, hs, hi, he]) h1
      · simp only [Bool.not_eq_true] at hi
        exact absurd (by simp [colDtype, hs, hi, he]) h2

theorem finalizeFrame_getCol_Animal (cfg : ExptConfig) (df2 : DF) :
    (finalizeFrame cfg df2).getCol "Animal" =
      some ((df2.getCol "Animal").getD (List.replicate df2.nrows Cell.null)) := by
  have hdf3 : ((df2.reindexCols oldColList).renameCols
      (oldColList.zip newColList)).getCol "Animal" =
      some ((df2.getCol "Animal").getD (List.replicate df2.nrows Cell.null)) := rfl
  unfold finalizeFrame
  cases hsex : cfg.sex with
  | false =>
    simp only [Bool.false_eq_true, if_false]
    rw [assign_groups, fillFromIds_getCol_ne _ _ _ _ (by decide)]
    exact hdf3
  | true =>
    simp only [if_true]
    rw [assign_sex, fillFromIds_getCol_ne _ _ _ _ (by decide),
      assign_groups, fillFromIds_getCol_ne _ _ _ _ (by decide)]
    exact hdf3

/-- Claim C7 counterexample: a csv-like source whose Animal column has
`object` dtype (strings mixed with a missing value) loads successfully,
and the missing Animal cell survives as a null, not as a string — so the
Animal column is not "always string-typed" after load. -/
theorem C7_counterexample :
    csvLike ⟨[("Animal", [.strC "A1", .null]), ("Group", [.null, .null]),
        ("Component Name", [.strC "c1", .strC "c2"]),
        ("Pct Component Time Freezing", [.intC 10, .intC 20]),
        ("Avg Motion Index", [.intC 1, .intC 2])]⟩ = true ∧
    ((load_data ⟨["train"], true, [("train_file", "t.csv")], [("g", ["A1"])], false, []⟩
        "train"
        ⟨[("Animal", [.strC "A1", .null]), ("Group", [.null, .null]),
          ("Component Name", [.strC "c1", .strC "c2"]),
          ("Pct Component Time Freezing", [.intC 10, .intC 20]),
          ("Avg Motion Index", [.intC 1, .intC 2])]⟩).toOption.bind
      (fun d => d.getCol "Animal")) = some [.strC "A1", .null] ∧
    Cell.isStr Cell.null = false := by decide

/-- Claim C7 (amended): after a successful load of a csv-like source,
every Animal value is a string except cells that were missing in the
source, which stay missing; when the source Animal column has a numeric
dtype (int64/float64) every Animal value is a string, obtained by an
integer-truncating conversion — a source value 3.0 yields "3", never
"3.0". -/
theorem C7_animal_string_typed (cfg : ExptConfig) (session : String) (raw df : DF)
    (hcsv : csvLike raw = true) (hok : load_data cfg session raw = .ok df) :
    ((df.getCol "Animal").getD []).all (fun c => c.isStr || c.isNull) = true ∧
    ((colDtype (((cleanStep raw).getCol "Animal").getD []) = .int64 ∨
        colDtype (((cleanStep raw).getCol "Animal").getD []) = .float64) →
      ((df.getCol "Animal").getD []).all Cell.isStr = true) ∧
    (astypeIntCell (.ratC 3)).map astypeStrCell = .ok (.strC "3") ∧
    Cell.strC "3" ≠ Cell.strC "3.0" := by
  obtain ⟨acol, df2, hacol, hconv, hdf⟩ := load_data_ok_inv cfg session raw df hok
  have hfin : (df.getCol "Animal").getD [] =
      (df2.getCol "Animal").getD (List.replicate df2.nrows Cell.null) := by
    rw [hdf, finalizeFrame_getCol_Animal]
    rfl
  unfold convertAnimal at hconv
  split at hconv
  · -- numeric dtype: the conversion ran
    rename_i hdt
    split at hconv
    · exact absurd hconv (by simp)
    · rename_i icol hicol
      rw [Except.ok.injEq] at hconv
      have hanimal : df2.getCol "Animal" = some (icol.map astypeStrCell) := by
        rw [hconv.symm]
        exact lookupCol_setColsAll_self _ _ _ _ hacol
      have hstr : ((df.getCol "Animal").getD []).all Cell.isStr = true := by
        rw [hfin, hanimal]
        exact all_isStr_astypeStr _ (mapCellsToInt_ok_isInt _ _ hicol)
      exact ⟨all_isStr_imp_strNull _ hstr, fun _ => hstr, by decide, by decide⟩
  · -- object dtype: no conversion
    rename_i hdt
    rw [Except.ok.injEq] at hconv
    have hanimal : df2.getCol "Animal" = some acol := by rw [hconv.symm]; exact hacol
    have hclean := cleanStep_getCol_ne raw "Animal" (by decide)
    rw [hacol] at hclean
    obtain ⟨rawcol, hrawcol, hg⟩ := Option.map_eq_some'.mp hclean.symm
    have hhomraw : homogeneousCol rawcol = true := by
      have hmem := lookupCol_mem_snd _ _ _ hrawcol
      obtain ⟨pr, hpr, hpr2⟩ := List.mem_map.mp hmem
      have := List.all_eq_true.mp hcsv pr hpr
      rw [hpr2] at this
      exact this
    have hhom : homogeneousCol acol = true := by
      rw [hg.symm]
      exact homogeneousCol_clean _ _ hhomraw
    push_neg at hdt
    have hall : acol.all (fun c => c.isStr || c.isNull) = true :=
      homog_object_strNull acol hhom hdt.2 hdt.1
    refine ⟨?_, ?_, by decide, by decide⟩
    · rw [hfin, hanimal]
      exact hall
    · intro hnum
      rw [hacol] at hnum
      simp only [Option.getD_some] at hnum
      rcases hnum with hnum | hnum
      · exact absurd hnum hdt.2
      · exact absurd hnum hdt.1

theorem C7_animal_string_typed_witness :
    ((DF.getCol ⟨[("Animal", [Cell.strC "3", Cell.strC "4"]), ("Group", [Cell.null, Cell.null]),
        ("Component", [Cell.strC "c1", Cell.strC "c2"]), ("PctFreeze", [Cell.intC 10, Cell.intC 20]),
        ("AvgMotion", [Cell.intC 1, Cell.intC 2])]⟩ "Animal").getD []).all
      (fun c => c.isStr || c.isNull) = true ∧
    ((colDtype (((cleanStep ⟨[("Animal", [Cell.ratC 3, Cell.ratC 4]),
        ("Group", [Cell.null, Cell.null]), ("Component Name", [Cell.strC "c1", Cell.strC "c2"]),
        ("Pct Component Time Freezing", [Cell.intC 10, Cell.intC 20]),
        ("Avg Motion Index", [Cell.intC 1, Cell.intC 2])]⟩).getCol "Animal").getD []) =
          Dtype.int64 ∨
        colDtype (((cleanStep ⟨[("Animal", [Cell.ratC 3, Cell.ratC 4]),
        ("Group", [Cell.null, Cell.null]), ("Component Name", [Cell.strC "c1", Cell.strC "c2"]),
        ("Pct Component Time Freezing", [Cell.intC 10, Cell.intC 20]),
        ("Avg Motion Index", [Cell.intC 1, Cell.intC 2])]⟩).getCol "Animal").getD []) =
          Dtype.float64) →
      ((DF.getCol ⟨[("Animal", [Cell.strC "3", Cell.strC "4"]), ("Group", [Cell.null, Cell.null]),
        ("Component", [Cell.strC "c1", Cell.strC "c2"]), ("PctFreeze", [Cell.intC 10, Cell.intC 20]),
        ("AvgMotion", [Cell.intC 1, Cell.intC 2])]⟩ "Animal").getD []).all Cell.isStr = true) ∧
    (astypeIntCell (.ratC 3)).map astypeStrCell = .ok (.strC "3") ∧
    Cell.strC "3" ≠ Cell.strC "3.0" :=
  C7_animal_string_typed ⟨["train"], true, [("train_file", "t.csv")], [], false, []⟩ "train"
    ⟨[("Animal", [Cell.ratC 3, Cell.ratC 4]), ("Group", [Cell.null, Cell.null]),
      ("Component Name", [Cell.strC "c1", Cell.strC "c2"]),
      ("Pct Component Time Freezing", [Cell.intC 10, Cell.intC 20]),
      ("Avg Motion Index", [Cell.intC 1, Cell.intC 2])]⟩ _ (by decide) (by decide)

theorem C1_canonical_columns_witness :
    (DF.colNames ⟨[("Animal", [Cell.strC "1"]), ("Group", [Cell.strC "cre"]),
        ("Component", [Cell.strC "baseline-1"]), ("PctFreeze", [Cell.intC 10]),
        ("AvgMotion", [Cell.intC 5])]⟩) =
      newColList ++ (if (⟨["train"], true, [("train_file", "t.csv")], [("cre", ["1"])], false,
        []⟩ : ExptConfig).sex = true ∧ (⟨["train"], true, [("train_file", "t.csv")],
        [("cre", ["1"])], false, []⟩ : ExptConfig).sexIds ≠ [] then ["Sex"] else []) :=
  C1_canonical_columns _ "train" ⟨[("Animal", [.strC "1"]), ("Group", [.null]),
    ("Component Name", [.strC "baseline-1"]), ("Pct Component Time Freezing", [.intC 10]),
    ("Avg Motion Index", [.intC 5]), ("Experiment", [.strC "x"])]⟩ _ (by decide)

/-! ## Claim C8: idempotency of the group fill -/

theorem lookupCol_append_ne (cols : List (String × List Cell)) (c m : String)
    (x : List Cell) (h : m ≠ c) :
    lookupCol (cols ++ [(c, x)]) m = lookupCol cols m := by
  induction cols with
  | nil =>
    simp only [List.nil_append, lookupCol]
    rw [if_neg (fun hh => h hh.symm)]
  | cons d rest ih =>
    by_cases hd : d.1 = m
    · simp [lookupCol, hd]
    · simp [lookupCol, hd, ih]

theorem lookupCol_append_self (cols : List (String × List Cell)) (c : String)
    (x : List Cell) (h : lookupCol cols c = none) :
    lookupCol (cols ++ [(c, x)]) c = some x := by
  induction cols with
  | nil => simp [lookupCol]
  | cons d rest ih =>
    by_cases hd : d.1 = c
    · simp only [lookupCol, hd, if_true] at h
      exact absurd h (by simp)
    · simp only [lookupCol, hd, if_false] at h
      simp [lookupCol, hd, ih h]

theorem setCols_absent_append (cols : List (String × List Cell)) (n : String)
    (mask : List Bool) (v : Cell) (h : lookupCol cols n = none) :
    setCols cols n mask v = cols ++ [(n, mask.map (fun b => if b then v else Cell.null))] := by
  induction cols with
  | nil => simp [setCols]
  | cons d rest ih =>
    by_cases hd : d.1 = n
    · simp only [lookupCol, hd, if_true] at h
      exact absurd h (by simp)
    · simp only [lookupCol, hd, if_false] at h
      simp [setCols, hd, ih h]

theorem setCols_append_self (cols : List (String × List Cell)) (n : String)
    (mask : List Bool) (v : Cell) (x : List Cell) (h : lookupCol cols n = none) :
    setCols (cols ++ [(n, x)]) n mask v = cols ++ [(n, maskWrite x mask v)] := by
  induction cols with
  | nil => simp [setCols]
  | cons d rest ih =>
    by_cases hd : d.1 = n
    · simp only [lookupCol, hd, if_true] at h
      exact absurd h (by simp)
    · simp only [lookupCol, hd, if_false] at h
      simp [setCols, hd, ih h]

theorem map_eq_maskWrite_replicate (mask : List Bool) (v : Cell) :
    mask.map (fun b => if b then v else Cell.null) =
      maskWrite (List.replicate mask.length Cell.null) mask v := by
  induction mask with
  | nil => rfl
  | cons b bs ih => simp [List.replicate_succ, maskWrite, ih]

theorem maskWrite_nil (m : List Bool) (v : Cell) : maskWrite [] m v = [] := by
  cases m <;> rfl

theorem applyGroupsCol_nil_animal (g : List (String × List String)) (o : List Cell) :
    applyGroupsCol g [] o = o := by
  induction g generalizing o with
  | nil => rfl
  | cons kv rest ih =>
    show applyGroupsCol rest [] (maskWrite o (isinMask [] kv.2) (.strC kv.1)) = o
    rw [show isinMask [] kv.2 = [] from rfl]
    cases o with
    | nil => exact ih []
    | cons x xs => exact ih (x :: xs)

theorem applyGroupsCol_nil_col (g : List (String × List String)) (a : List Cell) :
    applyGroupsCol g a [] = [] := by
  induction g with
  | nil => rfl
  | cons kv rest ih =>
    show applyGroupsCol rest a (maskWrite [] (isinMask a kv.2) (.strC kv.1)) = []
    rw [maskWrite_nil]
    exact ih

theorem applyGroupsCol_cons_cons (g : List (String × List String)) (ac : Cell)
    (as : List Cell) (oc : Cell) (os : List Cell) :
    applyGroupsCol g (ac :: as) (oc :: os) =
      applyCellGroups g ac oc :: applyGroupsCol g as os := by
  induction g generalizing oc os with
  | nil => rfl
  | cons kv rest ih =>
    show applyGroupsCol rest (ac :: as)
        (maskWrite (oc :: os) (isinMask (ac :: as) kv.2) (.strC kv.1)) = _
    rw [show maskWrite (oc :: os) (isinMask (ac :: as) kv.2) (.strC kv.1) =
      (if animalMatches kv.2 ac then Cell.strC kv.1 else oc) ::
        maskWrite os (isinMask as kv.2) (.strC kv.1) from rfl]
    rw [ih]
    rfl

theorem applyCellGroups_idem (g : List (String × List String)) (ac oc : Cell) :
    applyCellGroups g ac (applyCellGroups g ac oc) = applyCellGroups g ac oc := by
  induction g generalizing oc with
  | nil => rfl
  | cons kv rest ih =>
    show applyCellGroups rest ac
        (if animalMatches kv.2 ac then Cell.strC kv.1
         else applyCellGroups rest ac (if animalMatches kv.2 ac then Cell.strC kv.1 else oc)) =
      applyCellGroups rest ac (if animalMatches kv.2 ac then Cell.strC kv.1 else oc)
    by_cases hm : animalMatches kv.2 ac = true
    · simp only [hm, eq_self_iff_true, if_true]
    · rw [Bool.not_eq_true] at hm
      simp only [hm, Bool.false_eq_true, if_false]
      exact ih oc

theorem applyGroupsCol_idem (g : List (String × List String)) (a o : List Cell) :
    applyGroupsCol g a (applyGroupsCol g a o) = applyGroupsCol g a o := by
  induction a generalizing o with
  | nil => rw [applyGroupsCol_nil_animal, applyGroupsCol_nil_animal]
  | cons ac as ih =>
    cases o with
    | nil => rw [applyGroupsCol_nil_col, applyGroupsCol_nil_col]
    | cons oc os =>
      rw [applyGroupsCol_cons_cons, applyGroupsCol_cons_cons, applyCellGroups_idem, ih]

/-- Characterization of a fill loop over a frame that already has the
target column: the result replaces that column by the fold of the masked
overwrites, with the mask column (Animal) unchanged throughout. -/
theorem fillFromIds_present_aux (c : String) (g : List (String × List String))
    (a : List Cell) (df : DF) (o : List Cell) (hc : c ≠ "Animal")
    (ho : df.getCol c = some o) (ha : (df.getCol "Animal").getD [] = a) :
    fillFromIds c g df = ⟨setColsAll df.cols c (applyGroupsCol g a o)⟩ := by
  induction g generalizing df o with
  | nil =>
    show df = ⟨setColsAll df.cols c o⟩
    rw [setColsAll_self_id df.cols c o ho]
  | cons kv rest ih =>
    show fillFromIds c rest
        (df.setColWhere c (isinMask ((df.getCol "Animal").getD []) kv.2) (Cell.strC kv.1)) = _
    rw [ha]
    have hstep : df.setColWhere c (isinMask a kv.2) (Cell.strC kv.1) =
        ⟨setColsAll df.cols c (maskWrite o (isinMask a kv.2) (Cell.strC kv.1))⟩ :=
      congrArg DF.mk (setCols_eq_setColsAll_maskWrite df.cols c (isinMask a kv.2)
        (Cell.strC kv.1) o ho)
    rw [hstep]
    rw [ih ⟨setColsAll df.cols c (maskWrite o (isinMask a kv.2) (Cell.strC kv.1))⟩
      (maskWrite o (isinMask a kv.2) (Cell.strC kv.1))
      (lookupCol_setColsAll_self df.cols c _ o ho)
      (by show (lookupCol (setColsAll df.cols c _) "Animal").getD [] = a
          rw [lookupCol_setColsAll_ne df.cols c "Animal" _ (Ne.symm hc)]
          exact ha)]
    show DF.mk (setColsAll (setColsAll df.cols c _) c _) = _
    rw [setColsAll_setColsAll]
    rfl

/-- Idempotency of a fill loop over a frame with the target column
present. -/
theorem fillFromIds_idem_present (c : String) (g : List (String × List String))
    (df : DF) (o : List Cell) (hc : c ≠ "Animal") (ho : df.getCol c = some o) :
    fillFromIds c g (fillFromIds c g df) = fillFromIds c g df := by
  have h1 := fillFromIds_present_aux c g ((df.getCol "Animal").getD []) df o hc ho rfl
  have hcol : (fillFromIds c g df).getCol c =
      some (applyGroupsCol g ((df.getCol "Animal").getD []) o) := by
    rw [h1]
    exact lookupCol_setColsAll_self df.cols c _ o ho
  have hani : ((fillFromIds c g df).getCol "Animal").getD [] =
      (df.getCol "Animal").getD [] := by
    rw [h1]
    show (lookupCol (setColsAll df.cols c _) "Animal").getD [] = _
    rw [lookupCol_setColsAll_ne df.cols c "Animal" _ (Ne.symm hc)]
    rfl
  have h2 := fillFromIds_present_aux c g ((df.getCol "Animal").getD [])
    (fillFromIds c g df) (applyGroupsCol g ((df.getCol "Animal").getD []) o) hc hcol hani
  rw [h2, h1]
  show DF.mk (setColsAll (setColsAll df.cols c _) c _) = _
  rw [setColsAll_setColsAll, applyGroupsCol_idem]

/-- Claim C8: `assign_groups` is idempotent — for every table and every
configuration, applying the group-assignment step twice with the same
config yields the same table as applying it once.  (Both the usual case
where the frame already has a Group column and the enlargement case where
the first masked write creates it.) -/
theorem C8_assign_groups_idempotent (g : List (String × List String)) (df : DF) :
    assign_groups g (assign_groups g df) = assign_groups g df := by
  cases hg : df.getCol "Group" with
  | some o =>
    exact fillFromIds_idem_present "Group" g df o (by decide) hg
  | none =>
    cases g with
    | nil => rfl
    | cons kv rest =>
      -- the first write creates the Group column; the run over `df` agrees
      -- with the run over `df` extended by an all-null Group column
      have hnullcol : List.map (fun b => if b then Cell.strC kv.1 else Cell.null)
          (isinMask ((df.getCol "Animal").getD []) kv.2) =
          maskWrite (List.replicate (isinMask ((df.getCol "Animal").getD []) kv.2).length
            Cell.null) (isinMask ((df.getCol "Animal").getD []) kv.2) (Cell.strC kv.1) :=
        map_eq_maskWrite_replicate _ _
      have hani2 : (DF.getCol ⟨df.cols ++ [("Group",
          List.replicate (isinMask ((df.getCol "Animal").getD []) kv.2).length Cell.null)]⟩
          "Animal").getD [] = (df.getCol "Animal").getD [] := by
        show (lookupCol (df.cols ++ _) "Animal").getD [] = _
        rw [lookupCol_append_ne df.cols "Group" "Animal" _ (by decide)]
        rfl
      have hstep : df.setColWhere "Group" (isinMask ((df.getCol "Animal").getD []) kv.2)
          (Cell.strC kv.1) =
          DF.setColWhere ⟨df.cols ++ [("Group",
            List.replicate (isinMask ((df.getCol "Animal").getD []) kv.2).length Cell.null)]⟩
            "Group" (isinMask ((DF.getCol ⟨df.cols ++ [("Group",
              List.replicate (isinMask ((df.getCol "Animal").getD []) kv.2).length
                Cell.null)]⟩ "Animal").getD []) kv.2) (Cell.strC kv.1) := by
        rw [hani2]
        show DF.mk (setCols df.cols "Group" _ _) = DF.mk (setCols (df.cols ++ _) "Group" _ _)
        rw [setCols_absent_append df.cols "Group" _ _ hg,
          setCols_append_self df.cols "Group" _ _ _ hg, hnullcol]
      have hagree : assign_groups (kv :: rest) df =
          assign_groups (kv :: rest) ⟨df.cols ++ [("Group",
            List.replicate (isinMask ((df.getCol "Animal").getD []) kv.2).length
              Cell.null)]⟩ :=
        congrArg (fillFromIds "Group" rest) hstep
      rw [hagree]
      exact fillFromIds_idem_present "Group" (kv :: rest)
        ⟨df.cols ++ [("Group",
          List.replicate (isinMask ((df.getCol "Animal").getD []) kv.2).length Cell.null)]⟩
        (List.replicate (isinMask ((df.getCol "Animal").getD []) kv.2).length Cell.null)
        (by decide)
        (lookupCol_append_self df.cols "Group" _ hg)

/-! ## Claims C5, C6, C10: trial windowing -/

/-- Inversion of a successful `tfc_trials_df`: rows survived, the tiled
axis length matched, and the output is the surviving rows zipped with the
tiled axis. -/
theorem tfc_trials_core_ok_inv (compLabs : List (String × ℚ × ℚ)) (ws we : ℚ)
    (rows : List TRow) (out : List TrialRow)
    (hok : tfc_trials_core compLabs ws we rows = .ok out) :
    keptRows (toneWindows compLabs ws we) rows ≠ [] ∧
    (tile ((linspace ws we (firstAnimalTrialCount
        (keptRows (toneWindows compLabs ws we) rows))).map round1)
      ((toneWindows compLabs ws we).length *
        (rows.map (fun r => r.animal)).dedup.length)).length =
      (keptRows (toneWindows compLabs ws we) rows).length ∧
    out = ((keptRows (toneWindows compLabs ws we) rows).zip
      (tile ((linspace ws we (firstAnimalTrialCount
        (keptRows (toneWindows compLabs ws we) rows))).map round1)
      ((toneWindows compLabs ws we).length *
        (rows.map (fun r => r.animal)).dedup.length))).map
      (fun p => ⟨p.1.1, p.1.2, p.2⟩) := by
  unfold tfc_trials_core at hok
  split at hok
  · exact absurd hok (by simp)
  · rename_i k0 krest heqk
    split at hok
    · rename_i hlen
      rw [Except.ok.injEq] at hok
      rw [heqk]
      exact ⟨by simp, hlen, hok.symm⟩
    · exact absurd hok (by simp)

/-- Claim C6 counterexample: with two tone components but data only in
the first window, the second trial window selects zero rows, and the
operation fails with the pandas length-mismatch error — not with any
`EmptyWindowError`. -/
theorem C6_counterexample :
    (([⟨"m1", 80, []⟩, ⟨"m1", 160, []⟩] : List TRow).filter
      (fun r => decide (280 ≤ r.comp ∧ r.comp ≤ 360))).length = 0 ∧
    tfc_trials_core [("tone-1", 100, 110), ("tone-2", 300, 310)] (-20) 60
      [⟨"m1", 80, []⟩, ⟨"m1", 160, []⟩] = .error .lengthMismatch ∧
    FcError.lengthMismatch ≠ FcError.emptyWindow := by
  with_unfolding_all decide

/-- Claim C6 (amended): `tfc_trials_df` never fails with an
`EmptyWindowError` — the source defines no such error.  When no rows at
all survive the filtering it fails with the `KeyError` of indexing the
empty frame, and otherwise it either fails with the `trial_time`
length-mismatch error or returns (possibly misaligned) output. -/
theorem C6_no_empty_window_error (compLabs : List (String × ℚ × ℚ)) (ws we : ℚ)
    (rows : List TRow) :
    tfc_trials_core compLabs ws we rows ≠ .error .emptyWindow ∧
    (keptRows (toneWindows compLabs ws we) rows = [] →
      tfc_trials_core compLabs ws we rows = .error .keyError) ∧
    (tfc_trials_core compLabs ws we rows = .error .keyError ∨
     tfc_trials_core compLabs ws we rows = .error .lengthMismatch ∨
     ∃ out, tfc_trials_core compLabs ws we rows = .ok out) := by
  refine ⟨?_, ?_, ?_⟩
  · intro h
    unfold tfc_trials_core at h
    split at h
    · exact absurd h (by simp)
    · split at h
      · exact absurd h (by simp)
      · exact absurd h (by simp)
  · intro hempty
    unfold tfc_trials_core
    split
    · rfl
    · rename_i k0 krest heqk
      rw [hempty] at heqk
      exact absurd heqk (by simp)
  · unfold tfc_trials_core
    split
    · exact Or.inl rfl
    · split
      · exact Or.inr (Or.inr ⟨_, rfl⟩)
      · exact Or.inr (Or.inl rfl)

theorem C6_no_empty_window_error_witness :
    tfc_trials_core [] 0 0 [] ≠ .error .emptyWindow ∧
    tfc_trials_core [] 0 0 [] = .error .keyError :=
  ⟨(C6_no_empty_window_error [] 0 0 []).1,
   (C6_no_empty_window_error [] 0 0 []).2.1 rfl⟩

theorem keptRows_mem_clean (wins : List (ℚ × ℚ)) (rows : List TRow) (p : TRow × Nat)
    (hp : p ∈ keptRows wins rows) : p.1.extra.all (fun c => !c.isNull) = true := by
  obtain ⟨r0, _, hf⟩ := List.mem_filterMap.mp hp
  split at hf
  · exact absurd hf (by simp)
  · split at hf
    · rename_i hall
      rw [Option.some.injEq] at hf
      rw [hf.symm]
      exact hall
    · exact absurd hf (by simp)

/-- Claim C10: the post-tagging `df.dropna()` of line 281 removes every
row with a missing value in any column, not only the rows outside all
trial windows: a row whose timestamp lies inside a trial window but whose
Group or Sex (or any other field) was never assigned is also discarded
from the output. -/
theorem C10_dropna_discards_null_rows (compLabs : List (String × ℚ × ℚ)) (ws we : ℚ)
    (rows : List TRow) (out : List TrialRow) (r : TRow)
    (hr : r ∈ rows) (hin : assignTrial (toneWindows compLabs ws we) r.comp ≠ none)
    (hnull : Cell.null ∈ r.extra)
    (hok : tfc_trials_core compLabs ws we rows = .ok out) :
    r ∉ out.map TrialRow.row := by
  intro hmem
  obtain ⟨-, -, hout⟩ := tfc_trials_core_ok_inv compLabs ws we rows out hok
  rw [hout, List.map_map] at hmem
  obtain ⟨p, hp, hpr⟩ := List.mem_map.mp hmem
  obtain ⟨a, b⟩ := p
  have ha : a ∈ keptRows (toneWindows compLabs ws we) rows := (List.of_mem_zip hp).1
  have hcl := keptRows_mem_clean _ _ _ ha
  have har : a.1 = r := hpr
  rw [har] at hcl
  have := List.all_eq_true.mp hcl Cell.null hnull
  exact absurd this (by decide)

theorem C10_dropna_discards_null_rows_witness :
    (⟨"2", 100, [Cell.null]⟩ : TRow) ∈
      ([⟨"1", 80, [.strC "g"]⟩, ⟨"1", 160, [.strC "g"]⟩, ⟨"2", 80, [.strC "g"]⟩,
        ⟨"2", 100, [.null]⟩, ⟨"2", 160, [.strC "g"]⟩] : List TRow) ∧
    (⟨"2", 100, [Cell.null]⟩ : TRow) ∉
      (([⟨⟨"1", 80, [.strC "g"]⟩, 1, -20⟩, ⟨⟨"1", 160, [.strC "g"]⟩, 1, 60⟩,
         ⟨⟨"2", 80, [.strC "g"]⟩, 1, -20⟩, ⟨⟨"2", 160, [.strC "g"]⟩, 1, 60⟩] :
        List TrialRow).map TrialRow.row) :=
  ⟨by with_unfolding_all decide,
   C10_dropna_discards_null_rows [("tone-1", 100, 110)] (-20) 60
     [⟨"1", 80, [.strC "g"]⟩, ⟨"1", 160, [.strC "g"]⟩, ⟨"2", 80, [.strC "g"]⟩,
      ⟨"2", 100, [.null]⟩, ⟨"2", 160, [.strC "g"]⟩]
     [⟨⟨"1", 80, [.strC "g"]⟩, 1, -20⟩, ⟨⟨"1", 160, [.strC "g"]⟩, 1, 60⟩,
      ⟨⟨"2", 80, [.strC "g"]⟩, 1, -20⟩, ⟨⟨"2", 160, [.strC "g"]⟩, 1, 60⟩]
     ⟨"2", 100, [Cell.null]⟩
     (by with_unfolding_all decide) (by with_unfolding_all decide) (by decide)
     (by with_unfolding_all decide)⟩

theorem keptRows_single_clean (s e : ℚ) (rows : List TRow)
    (hclean : ∀ r ∈ rows, r.extra.all (fun c => !c.isNull) = true) :
    keptRows [(s, e)] rows =
      (rows.filter (fun r => decide (s ≤ r.comp ∧ r.comp ≤ e))).map (fun r => (r, 1)) := by
  induction rows with
  | nil => rfl
  | cons r rs ih =>
    have hr := hclean r (by simp)
    have hrs : ∀ x ∈ rs, x.extra.all (fun c => !c.isNull) = true :=
      fun x hx => hclean x (by simp [hx])
    have hassign : assignTrial [(s, e)] r.comp =
        if s ≤ r.comp ∧ r.comp ≤ e then some 1 else none := rfl
    show List.filterMap _ (r :: rs) = _
    rw [List.filterMap_cons, List.filter_cons]
    by_cases hw : s ≤ r.comp ∧ r.comp ≤ e
    · rw [show (match assignTrial [(s, e)] r.comp with
        | none => none
        | some t => if r.extra.all (fun c => !c.isNull) then some (r, t) else none) =
          some (r, 1) by rw [hassign, if_pos hw]; simp [hr]]
      rw [if_pos (by simp [hw]), List.map_cons]
      exact congrArg (List.cons (r, 1)) (ih hrs)
    · rw [show (match assignTrial [(s, e)] r.comp with
        | none => none
        | some t => if r.extra.all (fun c => !c.isNull) then some (r, t) else none) =
          (none : Option (TRow × Nat)) by rw [hassign, if_neg hw]]
      rw [if_neg (by simp [hw])]
      exact ih hrs

theorem linspace_length (a b : ℚ) (n : Nat) : (linspace a b n).length = n := by
  match n with
  | 0 => rfl
  | 1 => rfl
  | m + 2 =>
    show ((List.range (m + 2)).map
      (fun i : ℕ => a + (b - a) * (i : ℚ) / ((m : ℚ) + 1))).length = m + 2
    rw [List.length_map, List.length_range]

theorem linspace_head (a b : ℚ) (n : Nat) (h : 1 ≤ n) : (linspace a b n).head? = some a := by
  match n with
  | 0 => exact absurd h (by decide)
  | 1 => rfl
  | m + 2 =>
    show ((List.range (m + 2)).map
      (fun i : ℕ => a + (b - a) * (i : ℚ) / ((m : ℚ) + 1))).head? = some a
    rw [List.head?_map, List.range_succ_eq_map]
    simp

theorem linspace_getLast (a b : ℚ) (m : Nat) : (linspace a b (m + 2)).getLast? = some b := by
  show ((List.range (m + 2)).map
    (fun i : ℕ => a + (b - a) * (i : ℚ) / ((m : ℚ) + 1))).getLast? = some b
  rw [List.getLast?_map, List.range_succ, List.getLast?_concat]
  have hx : ((m : ℚ) + 1) ≠ 0 := by positivity
  rw [Option.map_some']
  congr 1
  push_cast
  field_simp

/-- Claim C5: with the single boundary entry {phase "tone-1", start 100,
end 110} and window offsets -20/+60, the trial window spans [80, 160]:
the tagging assigns trial 1 exactly to timestamps in the inclusive
interval [80, 160]; on success the output rows are exactly the input rows
inside that interval, in order (every row outside is discarded), each
tagged with trial 1; and the trial-time axis is the rounded
`linspace(-20, 60, m)` whose length equals the first animal-trial's
surviving row count `m`, runs from -20 to 60 (once it has at least two
points), and is tiled once per subject. -/
theorem C5_windowed_trials (rows : List TRow) (out : List TrialRow)
    (hclean : ∀ r ∈ rows, r.extra.all (fun c => !c.isNull) = true)
    (hok : tfc_trials_core [("tone-1", 100, 110)] (-20) 60 rows = .ok out) :
    (∀ q : ℚ, assignTrial (toneWindows [("tone-1", 100, 110)] (-20) 60) q = some 1 ↔
      (80 ≤ q ∧ q ≤ 160)) ∧
    out.map TrialRow.row = rows.filter (fun r => decide (80 ≤ r.comp ∧ r.comp ≤ 160)) ∧
    (∀ x ∈ out, x.trial = 1) ∧
    out.map TrialRow.trial_time =
      tile (c5Axis rows) (1 * (rows.map (fun r => r.animal)).dedup.length) ∧
    (c5Axis rows).length = c5M rows ∧
    (2 ≤ c5M rows → (c5Axis rows).head? = some (-20) ∧ (c5Axis rows).getLast? = some 60) := by
  have hwins : toneWindows [("tone-1", 100, 110)] (-20) 60 = [((80 : ℚ), 160)] := by
    with_unfolding_all decide
  obtain ⟨hne, hlen, hout⟩ := tfc_trials_core_ok_inv _ _ _ _ _ hok
  have hkept : keptRows (toneWindows [("tone-1", 100, 110)] (-20) 60) rows =
      (rows.filter (fun r => decide (80 ≤ r.comp ∧ r.comp ≤ 160))).map (fun r => (r, 1)) := by
    rw [hwins]
    exact keptRows_single_clean 80 160 rows hclean
  refine ⟨?_, ?_, ?_, ?_, ?_, ?_⟩
  · intro q
    rw [hwins]
    rw [show assignTrial [((80 : ℚ), 160)] q =
      if (80 : ℚ) ≤ q ∧ q ≤ 160 then some 1 else none from rfl]
    by_cases h : (80 : ℚ) ≤ q ∧ q ≤ 160
    · rw [if_pos h]
      simp [h]
    · rw [if_neg h]
      simp [h]
  · rw [hout, List.map_map]
    rw [show (TrialRow.row ∘ fun p : (TRow × Nat) × ℚ => (⟨p.1.1, p.1.2, p.2⟩ : TrialRow)) =
      (Prod.fst ∘ (Prod.fst : (TRow × Nat) × ℚ → TRow × Nat)) from rfl]
    rw [← List.map_map, List.map_fst_zip _ _ (le_of_eq hlen.symm), hkept, List.map_map]
    rw [show (Prod.fst ∘ fun r : TRow => (r, 1)) = id from rfl, List.map_id]
  · intro x hx
    rw [hout] at hx
    obtain ⟨p, hp, hpx⟩ := List.mem_map.mp hx
    obtain ⟨pa, pb⟩ := p
    have hpa : pa ∈ keptRows (toneWindows [("tone-1", 100, 110)] (-20) 60) rows :=
      (List.of_mem_zip hp).1
    rw [hkept] at hpa
    obtain ⟨r0, _, hr0⟩ := List.mem_map.mp hpa
    rw [← hpx]
    show pa.2 = 1
    rw [← hr0]
  · rw [hout, List.map_map]
    rw [show (TrialRow.trial_time ∘ fun p : (TRow × Nat) × ℚ => (⟨p.1.1, p.1.2, p.2⟩ : TrialRow)) =
      (Prod.snd : (TRow × Nat) × ℚ → ℚ) from rfl]
    rw [List.map_snd_zip _ _ (le_of_eq hlen)]
    rw [show ((linspace (-20) 60 (firstAnimalTrialCount
      (keptRows (toneWindows [("tone-1", 100, 110)] (-20) 60) rows))).map round1) =
      c5Axis rows from rfl]
    rw [show (toneWindows [("tone-1", 100, 110)] (-20) 60).length = 1 from by simp [hwins]]
  · show ((linspace (-20) 60 (c5M rows)).map round1).length = c5M rows
    rw [List.length_map, linspace_length]
  · intro h2
    obtain ⟨k, hk⟩ : ∃ k, c5M rows = k + 2 := ⟨c5M rows - 2, by omega⟩
    constructor
    · show ((linspace (-20) 60 (c5M rows)).map round1).head? = some (-20)
      rw [List.head?_map, linspace_head _ _ _ (by omega), Option.map_some']
      rw [show round1 (-20) = -20 from by with_unfolding_all decide]
    · show ((linspace (-20) 60 (c5M rows)).map round1).getLast? = some 60
      rw [List.getLast?_map, hk, linspace_getLast, Option.map_some']
      rw [show round1 60 = 60 from by with_unfolding_all decide]

theorem C5_windowed_trials_witness :
    (assignTrial (toneWindows [("tone-1", 100, 110)] (-20) 60) 100 = some 1 ↔
      ((80 : ℚ) ≤ 100 ∧ (100 : ℚ) ≤ 160)) ∧
    ([⟨⟨"1", 80, []⟩, 1, -20⟩, ⟨⟨"1", 160, []⟩, 1, 60⟩] : List TrialRow).map TrialRow.row =
      ([⟨"1", 80, []⟩, ⟨"1", 160, []⟩] : List TRow).filter
        (fun r => decide (80 ≤ r.comp ∧ r.comp ≤ 160)) ∧
    (c5Axis [⟨"1", 80, []⟩, ⟨"1", 160, []⟩]).length = c5M [⟨"1", 80, []⟩, ⟨"1", 160, []⟩] ∧
    (c5Axis [⟨"1", 80, []⟩, ⟨"1", 160, []⟩]).head? = some (-20) ∧
    (c5Axis [⟨"1", 80, []⟩, ⟨"1", 160, []⟩]).getLast? = some 60 := by
  have h := C5_windowed_trials [⟨"1", 80, []⟩, ⟨"1", 160, []⟩]
    [⟨⟨"1", 80, []⟩, 1, -20⟩, ⟨⟨"1", 160, []⟩, 1, 60⟩]
    (by decide) (by with_unfolding_all decide)
  have hm : 2 ≤ c5M [⟨"1", 80, []⟩, ⟨"1", 160, []⟩] := by with_unfolding_all decide
  exact ⟨h.1 100, h.2.1, h.2.2.2.2.1, (h.2.2.2.2.2 hm).1, (h.2.2.2.2.2 hm).2⟩

end FearData
